import Mathlib

/-
Verification of the QRify browser extension core: the styled QR rasterizer,
the rounded-rectangle path helper, the center-icon compositor, the SVG
re-encoder, the render geometry, the icon-upload validation, and the pop-out
window payload parser.  Every definition is a shallow embedding of the
corresponding TypeScript function; machine numbers are modelled as Nat, Int
or Rat, since every call site supplies values far from any overflow boundary.
-/

namespace QRify

/-- Dot style for QR rasterization: the `dotType` union type in
`src/utils/qrStyler.ts`. -/
inductive DotType where
  | square
  | rounded
deriving DecidableEq, Repr

/-- One clamping step of `roundRect` in `src/utils/qrStyler.ts`:
`if (d < 2 * radius) radius = d / 2` for a dimension `d`. -/
def clampHalf (d radius : ℚ) : ℚ :=
  if d < 2 * radius then d / 2 else radius

/-- The radius that `roundRect` (`src/utils/qrStyler.ts`, lines 100-118)
actually builds into the path: the requested radius clamped first against the
width, then against the height, exactly as the two successive `if` statements
of the source do. -/
def effectiveRadius (width height radius : ℚ) : ℚ :=
  clampHalf height (clampHalf width radius)

/-- A paint operation issued by `drawStyledQRCode` onto the 2D context.
Coordinates are integers: every call site passes integer `cellSize` and
`offset` (both produced by `Math.floor`).  `fillRoundRect` records the
effective (clamped) radius that `roundRect` builds into the path before
`ctx.fill()` runs. -/
inductive PaintOp where
  | setFillStyle (color : String)
  | fillRect (x y w h : ℤ)
  | fillRoundRect (x y w h : ℤ) (r : ℚ)
deriving DecidableEq, Repr

/-- The single paint operation issued for one dark module in
`drawStyledQRCode` (`src/utils/qrStyler.ts`, lines 141-146): a rounded
rectangle when `dotType === "rounded" && cornerRadius > 0`, otherwise
`ctx.fillRect`.  The rounded operation records the clamped radius the
`roundRect` path is built with; when that radius is negative, executing the
operation throws (see `opThrows`). -/
def paintCell (dotType : DotType) (cornerRadius x y cellSize : ℤ) : PaintOp :=
  if dotType = DotType.rounded ∧ 0 < cornerRadius then
    PaintOp.fillRoundRect x y cellSize cellSize
      (effectiveRadius (cellSize : ℚ) (cellSize : ℚ) (cornerRadius : ℚ))
  else
    PaintOp.fillRect x y cellSize cellSize

/-- Shallow embedding of `drawStyledQRCode` (`src/utils/qrStyler.ts`, lines
123-150) as the list of operations it issues on the context: it sets the fill
style once, then for each `(row, col)` with both indices below
`qrModuleCount` and `qrIsDark row col` true it paints one cell at
`(offset + col * cellSize, offset + row * cellSize)`.  A zero or negative
`qrModuleCount` runs the `for` loops zero times, exactly as in JavaScript.
The embedding records the operations the loops issue; whether executing an
operation against the canvas API throws is interpreted separately by
`opThrows` and `renderThrows` below, since a `roundRect` path built with a
negative clamped radius makes `ctx.arcTo` throw an IndexSizeError. -/
def drawStyledQRCode (qrModuleCount : ℤ) (qrIsDark : ℕ → ℕ → Bool)
    (cellSize offset : ℤ) (dotsColor : String)
    (dotType : DotType) (cornerRadius : ℤ) : List PaintOp :=
  PaintOp.setFillStyle dotsColor ::
    (List.range qrModuleCount.toNat).flatMap (fun row =>
      (List.range qrModuleCount.toNat).flatMap (fun col =>
        if qrIsDark row col then
          [paintCell dotType cornerRadius (offset + (col : ℤ) * cellSize)
            (offset + (row : ℤ) * cellSize) cellSize]
        else []))

/-- Pixels covered by one paint operation, following the HTML canvas model:
`fillRect x y w h` paints the rectangular area between the corners `(x, y)`
and `(x + w, y + h)`; a negative `w` or `h` flips the corners and a zero `w`
or `h` paints nothing.  A rounded rectangle inks a subset of its bounding
box; at the cell granularity of the claims the bounding box is used as its
footprint, which over-approximates the inked pixels and is therefore sound
for containment and area bounds. -/
def opPixels : PaintOp → Finset (ℤ × ℤ)
  | PaintOp.setFillStyle _ => ∅
  | PaintOp.fillRect x y w h =>
      Finset.Ico (min x (x + w)) (max x (x + w)) ×ˢ
        Finset.Ico (min y (y + h)) (max y (y + h))
  | PaintOp.fillRoundRect x y w h _ =>
      Finset.Ico (min x (x + w)) (max x (x + w)) ×ˢ
        Finset.Ico (min y (y + h)) (max y (y + h))

/-- The union of all pixels painted by a list of operations. -/
def paintedPixels (ops : List PaintOp) : Finset (ℤ × ℤ) :=
  ops.foldr (fun op acc => opPixels op ∪ acc) ∅

/-- Does this operation paint a cell whose bounding box sits at `(px, py)`
with side `s`?  True for both the square and the rounded cell shape. -/
def isCellPaintAt (op : PaintOp) (px py s : ℤ) : Bool :=
  match op with
  | PaintOp.setFillStyle _ => false
  | PaintOp.fillRect x y w h => x == px && y == py && w == s && h == s
  | PaintOp.fillRoundRect x y w h _ => x == px && y == py && w == s && h == s

lemma clampHalf_le_half (d r : ℚ) : clampHalf d r ≤ d / 2 := by
  unfold clampHalf; split_ifs with h <;> linarith

lemma clampHalf_le_self (d r : ℚ) : clampHalf d r ≤ r := by
  unfold clampHalf; split_ifs with h <;> linarith

/-- C3: the effective radius used by `roundRect` never exceeds half of the
width nor half of the height; in particular a 20 px cell with requested
radius 50 uses effective radius 10. -/
theorem effectiveRadius_clamped (w h r : ℚ)
    (hw : 0 < w) (hh : 0 < h) (hr : 0 ≤ r) :
    effectiveRadius w h r ≤ w / 2 ∧ effectiveRadius w h r ≤ h / 2 ∧
      effectiveRadius 20 20 50 = 10 := by
  refine ⟨le_trans (clampHalf_le_self h (clampHalf w r)) (clampHalf_le_half w r),
    clampHalf_le_half h (clampHalf w r), ?_⟩
  norm_num [effectiveRadius, clampHalf]

/-- Witness for C3 at the concrete input from the spec: width 20, height 20,
requested radius 50. -/
theorem effectiveRadius_clamped_witness :
    effectiveRadius 20 20 50 ≤ 20 / 2 ∧ effectiveRadius 20 20 50 ≤ 20 / 2 ∧
      effectiveRadius 20 20 50 = 10 :=
  effectiveRadius_clamped 20 20 50 (by norm_num) (by norm_num) (by norm_num)

/-- C2: the rounded style with `cornerRadius = 0` issues exactly the same
paint operations as the square style, because the source guard
`dotType === "rounded" && cornerRadius > 0` fails and both renders take the
`ctx.fillRect` branch; the renders are therefore pixel-identical. -/
theorem rounded_zero_radius_eq_square (qrModuleCount : ℤ)
    (qrIsDark : ℕ → ℕ → Bool) (cellSize offset : ℤ) (dotsColor : String)
    (cornerRadius : ℤ) :
    drawStyledQRCode qrModuleCount qrIsDark cellSize offset dotsColor
        DotType.rounded 0 =
      drawStyledQRCode qrModuleCount qrIsDark cellSize offset dotsColor
        DotType.square cornerRadius := by
  simp [drawStyledQRCode, paintCell]

lemma mem_drawStyledQRCode {op : PaintOp} {N : ℤ} {qrIsDark : ℕ → ℕ → Bool}
    {cellSize offset : ℤ} {dotsColor : String} {dotType : DotType}
    {cornerRadius : ℤ} :
    op ∈ drawStyledQRCode N qrIsDark cellSize offset dotsColor dotType
        cornerRadius ↔
      op = PaintOp.setFillStyle dotsColor ∨
        ∃ row col : ℕ, row < N.toNat ∧ col < N.toNat ∧
          qrIsDark row col = true ∧
          op = paintCell dotType cornerRadius (offset + (col : ℤ) * cellSize)
            (offset + (row : ℤ) * cellSize) cellSize := by
  simp only [drawStyledQRCode, List.mem_cons, List.mem_flatMap, List.mem_range]
  constructor
  · rintro (h | ⟨row, hrow, col, hcol, hmem⟩)
    · exact Or.inl h
    · by_cases hd : qrIsDark row col
      · simp only [hd, if_true, List.mem_singleton] at hmem
        exact Or.inr ⟨row, col, hrow, hcol, hd, hmem⟩
      · simp [hd] at hmem
  · rintro (h | ⟨row, col, hrow, hcol, hd, hop⟩)
    · exact Or.inl h
    · exact Or.inr ⟨row, hrow, col, hcol, by simp [hd, hop]⟩

lemma isCellPaintAt_paintCell (dotType : DotType) (cr x y s px py t : ℤ) :
    isCellPaintAt (paintCell dotType cr x y s) px py t = true ↔
      x = px ∧ y = py ∧ s = t := by
  unfold paintCell
  split_ifs <;> simp [isCellPaintAt, and_assoc]

lemma opPixels_paintCell (dotType : DotType) (cr x y s : ℤ) (hs : 0 < s) :
    opPixels (paintCell dotType cr x y s) =
      Finset.Ico x (x + s) ×ˢ Finset.Ico y (y + s) := by
  have h1 : min x (x + s) = x := min_eq_left (by linarith)
  have h2 : max x (x + s) = x + s := max_eq_right (by linarith)
  have h3 : min y (y + s) = y := min_eq_left (by linarith)
  have h4 : max y (y + s) = y + s := max_eq_right (by linarith)
  unfold paintCell
  split_ifs <;> simp [opPixels, h1, h2, h3, h4]

lemma mem_paintedPixels {p : ℤ × ℤ} {ops : List PaintOp} :
    p ∈ paintedPixels ops ↔ ∃ op ∈ ops, p ∈ opPixels op := by
  induction ops with
  | nil => simp [paintedPixels]
  | cons op rest ih =>
      simp only [paintedPixels, List.foldr_cons, Finset.mem_union,
        List.mem_cons] at ih ⊢
      constructor
      · rintro (h | h)
        · exact ⟨op, Or.inl rfl, h⟩
        · obtain ⟨q, hq, hp⟩ := ih.mp h
          exact ⟨q, Or.inr hq, hp⟩
      · rintro ⟨q, hq | hq, hp⟩
        · exact Or.inl (hq ▸ hp)
        · exact Or.inr (ih.mpr ⟨q, hq, hp⟩)

/-- The (col, row) pair such that a cell op sits at
`(offset + col * cellSize, offset + row * cellSize)` is uniquely determined
when `cellSize` is nonzero. -/
lemma cell_position_injective {offset cellSize : ℤ} (hcs : cellSize ≠ 0)
    {a b : ℕ} (h : offset + (a : ℤ) * cellSize = offset + (b : ℤ) * cellSize) :
    a = b := by
  have := mul_right_cancel₀ hcs (add_left_cancel h)
  exact_mod_cast this

/-- C4: with `moduleCount ≥ 1`, `cellSize ≥ 1`, `offset ≥ 0`, the rasterizer
issues a cell paint at `(offset + col*cellSize, offset + row*cellSize)` of
side `cellSize` exactly for the dark `(row, col)` pairs; every painted pixel
lies inside the square `[offset, offset + moduleCount*cellSize)` on both
axes, so pixels outside that region are untouched; and the total painted
area is at most `(moduleCount * cellSize) ^ 2`. -/
theorem drawStyledQRCode_frame (N : ℤ) (qrIsDark : ℕ → ℕ → Bool)
    (cellSize offset : ℤ) (dotsColor : String) (dotType : DotType)
    (cornerRadius : ℤ) (hN : 1 ≤ N) (hcs : 1 ≤ cellSize) (hoff : 0 ≤ offset) :
    (∀ row col : ℕ, row < N.toNat → col < N.toNat →
      ((∃ op ∈ drawStyledQRCode N qrIsDark cellSize offset dotsColor dotType
            cornerRadius,
          isCellPaintAt op (offset + (col : ℤ) * cellSize)
            (offset + (row : ℤ) * cellSize) cellSize = true) ↔
        qrIsDark row col = true)) ∧
    (∀ op ∈ drawStyledQRCode N qrIsDark cellSize offset dotsColor dotType
        cornerRadius,
      opPixels op ⊆
        Finset.Ico offset (offset + N * cellSize) ×ˢ
          Finset.Ico offset (offset + N * cellSize)) ∧
    ((paintedPixels (drawStyledQRCode N qrIsDark cellSize offset dotsColor
        dotType cornerRadius)).card : ℤ) ≤ (N * cellSize) ^ 2 := by
  have hcs0 : cellSize ≠ 0 := by omega
  have hcspos : (0 : ℤ) < cellSize := by omega
  -- containment of a single cell box in the module region
  have hbox : ∀ row col : ℕ, row < N.toNat → col < N.toNat →
      (Finset.Ico (offset + (col : ℤ) * cellSize)
          (offset + (col : ℤ) * cellSize + cellSize) ×ˢ
        Finset.Ico (offset + (row : ℤ) * cellSize)
          (offset + (row : ℤ) * cellSize + cellSize)) ⊆
      Finset.Ico offset (offset + N * cellSize) ×ˢ
        Finset.Ico offset (offset + N * cellSize) := by
    intro row col hrow hcol
    have hrow2 : (row : ℤ) + 1 ≤ N := by omega
    have hcol2 : (col : ℤ) + 1 ≤ N := by omega
    have hge : ∀ k : ℕ, offset ≤ offset + (k : ℤ) * cellSize := by
      intro k
      have : (0 : ℤ) ≤ (k : ℤ) * cellSize :=
        mul_nonneg (Int.natCast_nonneg k) (by omega)
      omega
    have hle : ∀ k : ℕ, (k : ℤ) + 1 ≤ N →
        offset + (k : ℤ) * cellSize + cellSize ≤ offset + N * cellSize := by
      intro k hk
      have : ((k : ℤ) + 1) * cellSize ≤ N * cellSize :=
        mul_le_mul_of_nonneg_right hk (by omega)
      nlinarith
    exact Finset.product_subset_product
      (Finset.Ico_subset_Ico (hge col) (hle col hcol2))
      (Finset.Ico_subset_Ico (hge row) (hle row hrow2))
  have hcontain : ∀ op ∈ drawStyledQRCode N qrIsDark cellSize offset dotsColor
      dotType cornerRadius,
      opPixels op ⊆
        Finset.Ico offset (offset + N * cellSize) ×ˢ
          Finset.Ico offset (offset + N * cellSize) := by
    intro op hop
    rcases mem_drawStyledQRCode.mp hop with h | ⟨row, col, hrow, hcol, _, h⟩
    · subst h; simp [opPixels]
    · subst h
      rw [opPixels_paintCell dotType cornerRadius _ _ _ hcspos]
      exact hbox row col hrow hcol
  refine ⟨?_, hcontain, ?_⟩
  · intro row col hrow hcol
    constructor
    · rintro ⟨op, hop, hat⟩
      rcases mem_drawStyledQRCode.mp hop with h | ⟨r, c, hr, hc, hd, h⟩
      · subst h; simp [isCellPaintAt] at hat
      · subst h
        rw [isCellPaintAt_paintCell] at hat
        obtain ⟨hx, hy, _⟩ := hat
        have hc2 : c = col := cell_position_injective hcs0 hx
        have hr2 : r = row := cell_position_injective hcs0 hy
        rw [← hc2, ← hr2]
        exact hd
    · intro hd
      refine ⟨paintCell dotType cornerRadius
          (offset + (col : ℤ) * cellSize) (offset + (row : ℤ) * cellSize)
          cellSize,
        mem_drawStyledQRCode.mpr (Or.inr ⟨row, col, hrow, hcol, hd, rfl⟩), ?_⟩
      rw [isCellPaintAt_paintCell]
      exact ⟨rfl, rfl, rfl⟩
  · have hsub : paintedPixels (drawStyledQRCode N qrIsDark cellSize offset
        dotsColor dotType cornerRadius) ⊆
        Finset.Ico offset (offset + N * cellSize) ×ˢ
          Finset.Ico offset (offset + N * cellSize) := by
      intro p hp
      obtain ⟨op, hop, hpx⟩ := mem_paintedPixels.mp hp
      exact hcontain op hop hpx
    have hcard := Finset.card_le_card hsub
    have hNcs : (0 : ℤ) ≤ N * cellSize := by positivity
    have hregion : (Finset.Ico offset (offset + N * cellSize) ×ˢ
        Finset.Ico offset (offset + N * cellSize)).card =
        (N * cellSize).toNat * (N * cellSize).toNat := by
      rw [Finset.card_product, Int.card_Ico]
      simp
    calc ((paintedPixels (drawStyledQRCode N qrIsDark cellSize offset dotsColor
            dotType cornerRadius)).card : ℤ)
        ≤ ((N * cellSize).toNat * (N * cellSize).toNat : ℕ) := by
          exact_mod_cast hregion ▸ hcard
      _ = (N * cellSize) ^ 2 := by
          push_cast [Int.toNat_of_nonneg hNcs]
          ring

/-- Witness for C4 at a concrete input: a 2x2 grid dark on the diagonal,
cell size 3, offset 1. -/
theorem drawStyledQRCode_frame_witness :
    (∀ row col : ℕ, row < (2 : ℤ).toNat → col < (2 : ℤ).toNat →
      ((∃ op ∈ drawStyledQRCode 2 (fun r c => r == c) 3 1 "#000000"
            DotType.square 0,
          isCellPaintAt op (1 + (col : ℤ) * 3) (1 + (row : ℤ) * 3) 3 = true) ↔
        (fun r c : ℕ => r == c) row col = true)) ∧
    (∀ op ∈ drawStyledQRCode 2 (fun r c => r == c) 3 1 "#000000"
        DotType.square 0,
      opPixels op ⊆
        Finset.Ico (1 : ℤ) (1 + 2 * 3) ×ˢ Finset.Ico (1 : ℤ) (1 + 2 * 3)) ∧
    ((paintedPixels (drawStyledQRCode 2 (fun r c => r == c) 3 1 "#000000"
        DotType.square 0)).card : ℤ) ≤ (2 * 3) ^ 2 :=
  drawStyledQRCode_frame 2 (fun r c => r == c) 3 1 "#000000" DotType.square 0
    (by norm_num) (by norm_num) (by norm_num)

/-- Does executing this operation against the canvas API throw?  `fillRect`
never throws, whatever the sign of its arguments; a `roundRect` path whose
clamped radius is negative makes `ctx.arcTo` throw an IndexSizeError while
the path is being built. -/
def opThrows : PaintOp → Bool
  | PaintOp.fillRoundRect _ _ _ _ r => decide (r < 0)
  | _ => false

/-- Does executing this operation trace throw at some point?  The first
throwing operation aborts the real run, so a run throws exactly when its
trace contains a throwing operation. -/
def renderThrows (ops : List PaintOp) : Bool := ops.any opThrows

lemma clampHalf_nonneg (d r : ℚ) (hd : 0 ≤ d) (hr : 0 ≤ r) :
    0 ≤ clampHalf d r := by
  unfold clampHalf; split_ifs <;> linarith

lemma opThrows_paintCell (dotType : DotType) (cornerRadius x y s : ℤ)
    (hs : 0 ≤ s) :
    opThrows (paintCell dotType cornerRadius x y s) = false := by
  unfold paintCell
  split_ifs with h
  · have hcr : (0 : ℚ) ≤ (cornerRadius : ℚ) := by exact_mod_cast h.2.le
    have hsq : (0 : ℚ) ≤ (s : ℚ) := by exact_mod_cast hs
    simp only [opThrows, decide_eq_false_iff_not, not_lt]
    exact clampHalf_nonneg _ _ hsq (clampHalf_nonneg _ _ hsq hcr)
  · rfl

/-- Counterexample to C9 as stated: with `moduleCount = 1`, a dark module
and `cellSize = -1`, the render is neither a no-op nor throw-free.  In the
square style at `offset = 10`, `ctx.fillRect` receives width and height
`-1` and paints the flipped rectangle with corners `(10, 10)` and `(9, 9)`,
so pixel `(9, 9)` of the canvas is painted; and in the rounded style with
`cornerRadius = 5`, `roundRect` clamps the radius to `-1/2` (the first
clamp fires because `-1 < 10`, the second does not because `-1 < -1` is
false) and `ctx.arcTo` throws an IndexSizeError on that negative radius. -/
theorem negative_cellSize_paints :
    ((9 : ℤ), (9 : ℤ)) ∈ paintedPixels
      (drawStyledQRCode 1 (fun _ _ => true) (-1) 10 "#000000"
        DotType.square 0) ∧
    renderThrows (drawStyledQRCode 1 (fun _ _ => true) (-1) 10 "#000000"
      DotType.rounded 5) = true := by
  constructor
  · decide
  · have hneg : effectiveRadius (-1 : ℚ) (-1 : ℚ) (5 : ℚ) < 0 := by
      norm_num [effectiveRadius, clampHalf]
    norm_num [renderThrows, drawStyledQRCode, paintCell, opThrows,
      List.range_succ, hneg]

/-- C9 amended: the rasterizer returns no value and acts only by side
effect; a zero or negative `moduleCount` issues no paint call at all, and a
zero `cellSize` paints no pixel and does not throw; more generally no
nonnegative `cellSize` can make it throw.  A negative `cellSize` is
excluded from both guarantees: the square branch still issues `fillRect` on
dark cells and paints flipped rectangles, and the rounded branch with
positive `cornerRadius` builds a path with a negative clamped radius, on
which `ctx.arcTo` throws, as the counterexample shows. -/
theorem drawStyledQRCode_degenerate_noop (N : ℤ) (qrIsDark : ℕ → ℕ → Bool)
    (cellSize offset : ℤ) (dotsColor : String) (dotType : DotType)
    (cornerRadius : ℤ) :
    (N ≤ 0 → drawStyledQRCode N qrIsDark cellSize offset dotsColor dotType
        cornerRadius = [PaintOp.setFillStyle dotsColor]) ∧
    (cellSize = 0 → paintedPixels (drawStyledQRCode N qrIsDark cellSize offset
        dotsColor dotType cornerRadius) = ∅) ∧
    (0 ≤ cellSize → renderThrows (drawStyledQRCode N qrIsDark cellSize offset
        dotsColor dotType cornerRadius) = false) := by
  refine ⟨?_, ?_, ?_⟩
  · intro hN
    have : N.toNat = 0 := by omega
    simp [drawStyledQRCode, this]
  · intro hcs
    rw [Finset.eq_empty_iff_forall_not_mem]
    intro p hp
    obtain ⟨op, hop, hpx⟩ := mem_paintedPixels.mp hp
    rcases mem_drawStyledQRCode.mp hop with h | ⟨row, col, _, _, _, h⟩
    · subst h; simp [opPixels] at hpx
    · subst h
      subst hcs
      unfold paintCell at hpx
      split_ifs at hpx <;> simp [opPixels] at hpx
  · intro hcs
    rw [renderThrows, List.any_eq_false]
    intro op hop
    rcases mem_drawStyledQRCode.mp hop with h | ⟨row, col, _, _, _, h⟩
    · subst h
      simp [opThrows]
    · subst h
      simp [opThrows_paintCell dotType cornerRadius _ _ cellSize hcs]

/-- Witness for the amended C9 at a concrete input: module count 0 and cell
size 0. -/
theorem drawStyledQRCode_degenerate_noop_witness :
    drawStyledQRCode 0 (fun _ _ => true) 0 0 "#000000" DotType.square 0 =
        [PaintOp.setFillStyle "#000000"] ∧
      paintedPixels (drawStyledQRCode 0 (fun _ _ => true) 0 0 "#000000"
        DotType.square 0) = ∅ ∧
      renderThrows (drawStyledQRCode 0 (fun _ _ => true) 0 0 "#000000"
        DotType.square 0) = false :=
  ⟨(drawStyledQRCode_degenerate_noop 0 (fun _ _ => true) 0 0 "#000000"
      DotType.square 0).1 (by norm_num),
   (drawStyledQRCode_degenerate_noop 0 (fun _ _ => true) 0 0 "#000000"
      DotType.square 0).2.1 rfl,
   (drawStyledQRCode_degenerate_noop 0 (fun _ _ => true) 0 0 "#000000"
      DotType.square 0).2.2 (by norm_num)⟩

/-- Canvas operations issued by the icon compositor `drawCenterIcon`
(`src/utils/qrStyler.ts`, lines 19-95).  Geometry uses rationals, since the
compositor divides by 2 and by 100.  `fillRoundRectPath` is a `roundRect`
path followed by `ctx.fill()`, `strokeRoundRectPath` a `roundRect` path
followed by `ctx.stroke()`; both record the effective (clamped) radius the
path is built with. -/
inductive IconOp where
  | fillRoundRectPath (x y w h r : ℚ) (fillStyle : String)
  | strokeRoundRectPath (x y w h r lineWidth : ℚ) (strokeStyle : String)
  | drawImage (src : String) (x y w h : ℚ)
deriving DecidableEq, Repr

/-- A square canvas: its width in pixels and the list of icon-compositor
operations that have been applied to it so far. -/
structure Canvas where
  width : ℚ
  ops : List IconOp
deriving DecidableEq, Repr

/-- The `DrawIconOptions` record of `src/utils/qrStyler.ts`, with the default
values the destructuring in `drawCenterIcon` resolves.  The empty string
models an absent or empty `iconBase64`. -/
structure DrawIconOptions where
  iconBase64 : String := ""
  size : ℚ := 25
  padding : ℚ := 4
  borderRadius : ℚ := 4
  backgroundType : String := "colored"
  backgroundColor : String := "#ffffff"
  backgroundBorderRadius : ℚ := 8

/-- The `img.onload` callback of `drawCenterIcon`: computes the centered icon
geometry, draws the background plate (filled plus 1 px stroke when
`backgroundType` is colored, a 1.5 px stroke alone when transparent), then
draws the icon image.  `backgroundBorderRadius || borderRadius` in the
source falls back to `borderRadius` exactly when `backgroundBorderRadius` is
falsy, which for a number means zero. -/
def iconOnload (o : DrawIconOptions) (c : Canvas) : Canvas :=
  let canvasSize := c.width
  let iconSize := canvasSize * o.size / 100
  let x := (canvasSize - iconSize) / 2
  let y := (canvasSize - iconSize) / 2
  let bgBorderRadius :=
    if o.backgroundBorderRadius = 0 then o.borderRadius
    else o.backgroundBorderRadius
  let plateSide := iconSize + o.padding * 2
  let plateRadius := effectiveRadius plateSide plateSide bgBorderRadius
  let bgOps :=
    if o.backgroundType = "colored" then
      [IconOp.fillRoundRectPath (x - o.padding) (y - o.padding)
          plateSide plateSide plateRadius o.backgroundColor,
        IconOp.strokeRoundRectPath (x - o.padding) (y - o.padding)
          plateSide plateSide plateRadius 1 "rgba(0, 0, 0, 0.1)"]
    else if o.backgroundType = "transparent" then
      [IconOp.strokeRoundRectPath (x - o.padding) (y - o.padding)
          plateSide plateSide plateRadius (3 / 2) "rgba(0, 0, 0, 0.15)"]
    else []
  { c with ops :=
      c.ops ++ bgOps ++ [IconOp.drawImage o.iconBase64 x y iconSize iconSize] }

/-- Shallow embedding of `drawCenterIcon`.  The returned pair is the canvas
at the moment the returned Promise resolves, together with the deferred
`onload` callbacks that were registered but have not yet run.  The source
body contains no `await`: it installs `img.onload`, assigns `img.src`, and
the async function resolves at the end of its synchronous body, while the
image load event is dispatched in a later event-loop task. -/
def drawCenterIcon (o : DrawIconOptions) (c : Canvas) :
    Canvas × List (Canvas → Canvas) :=
  if o.iconBase64 = "" then (c, []) else (c, [iconOnload o])

/-- A concrete invocation used to exhibit the C1 race: a non-empty icon on a
fresh 280 px canvas. -/
def iconOptsEx : DrawIconOptions :=
  { iconBase64 := "data:image/png;base64,iVBORw0KGgo" }

/-- A fresh 280 px canvas with no paint on it. -/
def canvasEx : Canvas := { width := 280, ops := [] }

/-- C1 fails on the code: at the moment the Promise returned by
`drawCenterIcon` resolves, nothing has been painted (the canvas operation
list is still empty) even for a non-empty `iconBase64`; exactly one `onload`
callback is pending, and only running that deferred callback paints the
plate and the icon.  The spec requires the completion signal to fire only
after decode and paint, so the code loses the race the spec itself flags. -/
theorem drawCenterIcon_resolves_before_paint :
    (drawCenterIcon iconOptsEx canvasEx).1.ops = [] ∧
    (drawCenterIcon iconOptsEx canvasEx).2.length = 1 ∧
    ((drawCenterIcon iconOptsEx canvasEx).2.foldl
        (fun cc f => f cc) canvasEx).ops ≠ [] := by
  refine ⟨?_, ?_, ?_⟩
  · simp [drawCenterIcon, iconOptsEx, canvasEx]
  · simp [drawCenterIcon, iconOptsEx]
  · simp [drawCenterIcon, iconOptsEx, canvasEx, iconOnload]

/-- A raster surface as `ctx.getImageData` exposes it to `canvasToAdvancedSVG`
and `canvasToSVG`: a width, a height, and the flat RGBA byte array, indexed
as `data ((y * width + x) * 4 + k)` with `k = 0` red, `1` green, `2` blue,
`3` alpha. -/
structure Surface where
  width : ℕ
  height : ℕ
  data : ℕ → ℕ

/-- The dark-pixel test of the SVG re-encoders:
`a > 128 && r < 128 && g < 128 && b < 128`. -/
def isDarkAt (s : Surface) (x y : ℕ) : Bool :=
  decide (128 < s.data ((y * s.width + x) * 4 + 3)) &&
  decide (s.data ((y * s.width + x) * 4) < 128) &&
  decide (s.data ((y * s.width + x) * 4 + 1) < 128) &&
  decide (s.data ((y * s.width + x) * 4 + 2) < 128)

/-- Concatenation of a list of string chunks, in order. -/
def concatStrings : List String → String
  | [] => ""
  | s :: rest => s ++ concatStrings rest

/-- The opening `<svg ...>` tag emitted first. -/
def svgHeader (w h : ℕ) : String :=
  "<svg xmlns=\"http://www.w3.org/2000/svg\" width=\"" ++ toString w ++
    "\" height=\"" ++ toString h ++ "\">"

/-- The full-surface background rectangle emitted second. -/
def svgBackgroundRect (w h : ℕ) (backgroundColor : String) : String :=
  "<rect width=\"" ++ toString w ++ "\" height=\"" ++ toString h ++
    "\" fill=\"" ++ backgroundColor ++ "\"/>"

/-- JavaScript string interpolation of `cornerRadius / 10` for an integer
`cornerRadius`: the shortest round-trip decimal, which is the integer part
followed by one fractional digit when the remainder is nonzero. -/
def tenthStr (cornerRadius : ℕ) : String :=
  toString (cornerRadius / 10) ++
    (if cornerRadius % 10 = 0 then "" else "." ++ toString (cornerRadius % 10))

/-- The unit-size square dot rectangle emitted for one dark pixel. -/
def svgSquareDot (x y : ℕ) (dotsColor : String) : String :=
  "<rect x=\"" ++ toString x ++ "\" y=\"" ++ toString y ++
    "\" width=\"1\" height=\"1\" fill=\"" ++ dotsColor ++ "\"/>"

/-- The unit-size rounded dot rectangle emitted for one dark pixel when the
rounded branch is taken (`rx` and `ry` set to `cornerRadius / 10`). -/
def svgRoundedDot (x y cornerRadius : ℕ) (dotsColor : String) : String :=
  "<rect x=\"" ++ toString x ++ "\" y=\"" ++ toString y ++
    "\" width=\"1\" height=\"1\" rx=\"" ++ tenthStr cornerRadius ++
    "\" ry=\"" ++ tenthStr cornerRadius ++ "\" fill=\"" ++ dotsColor ++ "\"/>"

/-- Shallow embedding of `canvasToAdvancedSVG` (`src/utils/qrStyler.ts`,
lines 185-238): starts the accumulator with the header and the background
rectangle, then scans `y` outer, `x` inner over the whole surface, appending
one unit rectangle for every pixel passing the dark test, and closes the
tag.  The `canvasToSVG` helpers of the popup views are the square branch of
this function. -/
def canvasToAdvancedSVG (s : Surface) (backgroundColor dotsColor : String)
    (dotType : DotType) (cornerRadius : ℕ) : String :=
  (if dotType = DotType.rounded ∧ 0 < cornerRadius then
    (List.range s.height).foldl (fun acc y =>
      (List.range s.width).foldl (fun acc2 x =>
        if isDarkAt s x y then acc2 ++ svgRoundedDot x y cornerRadius dotsColor
        else acc2) acc)
      (svgHeader s.width s.height ++
        svgBackgroundRect s.width s.height backgroundColor)
  else
    (List.range s.height).foldl (fun acc y =>
      (List.range s.width).foldl (fun acc2 x =>
        if isDarkAt s x y then acc2 ++ svgSquareDot x y dotsColor
        else acc2) acc)
      (svgHeader s.width s.height ++
        svgBackgroundRect s.width s.height backgroundColor)) ++
    "</svg>"

/-- The markup a single dark pixel contributes, per branch. -/
def dotMarkup (dotType : DotType) (cornerRadius : ℕ) (dotsColor : String)
    (x y : ℕ) : String :=
  if dotType = DotType.rounded ∧ 0 < cornerRadius then
    svgRoundedDot x y cornerRadius dotsColor
  else svgSquareDot x y dotsColor

/-- The dark pixel positions of a surface in scan order: row-major (each row
top to bottom, each column left to right within the row). -/
def darkPositions (s : Surface) : List (ℕ × ℕ) :=
  (List.range s.height).flatMap (fun y =>
    ((List.range s.width).filter (fun x => isDarkAt s x y)).map (fun x => (x, y)))

/-- The positions at which the re-encoder loop appends a unit rectangle, as
the trace of the accumulating loops themselves. -/
def emittedPositions (s : Surface) : List (ℕ × ℕ) :=
  (List.range s.height).foldl (fun acc y =>
    (List.range s.width).foldl (fun acc2 x =>
      if isDarkAt s x y then acc2 ++ [(x, y)] else acc2) acc) []

/-- Rasterizing the pixel set implied by the emitted unit rectangles: each
1x1 rectangle at `(x, y)` covers exactly the pixel `(x, y)`. -/
def rasterizePositions (rects : List (ℕ × ℕ)) : Finset (ℕ × ℕ) :=
  rects.foldr (fun p acc => insert p acc) ∅

lemma concatStrings_append (a b : List String) :
    concatStrings (a ++ b) = concatStrings a ++ concatStrings b := by
  induction a with
  | nil => simp [concatStrings, String.empty_append]
  | cons s rest ih => simp [concatStrings, ih, String.append_assoc]

lemma foldl_emit_string (p : ℕ → Bool) (f : ℕ → String) :
    ∀ (l : List ℕ) (acc : String),
      l.foldl (fun a x => if p x then a ++ f x else a) acc =
        acc ++ concatStrings ((l.filter p).map f) := by
  intro l
  induction l with
  | nil => intro acc; simp [concatStrings, String.append_empty]
  | cons x xs ih =>
      intro acc
      by_cases hp : p x
      · simp only [List.foldl_cons, hp, if_true, List.filter_cons, List.map_cons]
        rw [ih, concatStrings, ← String.append_assoc]
      · simp only [List.foldl_cons, hp, if_false, List.filter_cons,
          Bool.false_eq_true, ite_false]
        exact ih acc

lemma nested_foldl_emit (p : ℕ → ℕ → Bool) (f : ℕ → ℕ → String) :
    ∀ (rows cols : List ℕ) (acc : String),
      rows.foldl (fun a y =>
          cols.foldl (fun a2 x => if p x y then a2 ++ f x y else a2) a) acc =
        acc ++ concatStrings (rows.map (fun y =>
          concatStrings ((cols.filter (fun x => p x y)).map (fun x => f x y)))) := by
  intro rows
  induction rows with
  | nil => intro cols acc; simp [concatStrings, String.append_empty]
  | cons y ys ih =>
      intro cols acc
      rw [List.foldl_cons, foldl_emit_string, ih, List.map_cons, concatStrings,
        String.append_assoc]

lemma concatStrings_map_flatMap (l : List ℕ) (g : ℕ → List (ℕ × ℕ))
    (F : ℕ × ℕ → String) :
    concatStrings ((l.flatMap g).map F) =
      concatStrings (l.map (fun y => concatStrings ((g y).map F))) := by
  induction l with
  | nil => rfl
  | cons y ys ih =>
      simp only [List.flatMap_cons, List.map_append, concatStrings_append,
        List.map_cons, concatStrings, ih]

/-- Structural normal form of the re-encoder output: header, background,
then the per-dark-pixel markup joined in row-major scan order. -/
lemma canvasToAdvancedSVG_normal (s : Surface)
    (backgroundColor dotsColor : String) (dotType : DotType)
    (cornerRadius : ℕ) :
    canvasToAdvancedSVG s backgroundColor dotsColor dotType cornerRadius =
      svgHeader s.width s.height ++
        svgBackgroundRect s.width s.height backgroundColor ++
        concatStrings ((darkPositions s).map (fun p =>
          dotMarkup dotType cornerRadius dotsColor p.1 p.2)) ++
        "</svg>" := by
  have hflat : ∀ emit : ℕ → ℕ → String,
      concatStrings ((darkPositions s).map (fun p : ℕ × ℕ => emit p.1 p.2)) =
        concatStrings ((List.range s.height).map (fun y =>
          concatStrings (((List.range s.width).filter
            (fun x => isDarkAt s x y)).map (fun x => emit x y)))) := by
    intro emit
    rw [darkPositions, concatStrings_map_flatMap]
    congr 1
    apply List.map_congr_left
    intro y _
    rw [List.map_map]
    rfl
  by_cases hbr : dotType = DotType.rounded ∧ 0 < cornerRadius
  · rw [canvasToAdvancedSVG, if_pos hbr, nested_foldl_emit]
    simp only [dotMarkup, hbr, and_self, if_true, ite_true]
    rw [hflat (fun x y => svgRoundedDot x y cornerRadius dotsColor)]
  · rw [canvasToAdvancedSVG, if_neg hbr, nested_foldl_emit]
    simp only [dotMarkup, hbr, if_false, ite_false]
    rw [hflat (fun x y => svgSquareDot x y dotsColor)]

lemma isDarkAt_congr (s1 s2 : Surface) (hw : s1.width = s2.width)
    (hdata : ∀ i, i < 4 * (s1.width * s1.height) → s1.data i = s2.data i)
    (x y : ℕ) (hx : x < s1.width) (hy : y < s1.height) :
    isDarkAt s1 x y = isDarkAt s2 x y := by
  have hlt : y * s1.width + x < s1.width * s1.height := by
    calc y * s1.width + x < y * s1.width + s1.width := by omega
      _ = (y + 1) * s1.width := by ring
      _ ≤ s1.height * s1.width := Nat.mul_le_mul_right _ (by omega)
      _ = s1.width * s1.height := Nat.mul_comm _ _
  unfold isDarkAt
  rw [← hw, hdata _ (by omega), hdata _ (by omega), hdata _ (by omega),
    hdata _ (by omega)]

lemma flatMap_congr_mem {α β : Type} (l : List α) (f g : α → List β)
    (h : ∀ a ∈ l, f a = g a) : l.flatMap f = l.flatMap g := by
  induction l with
  | nil => rfl
  | cons a rest ih =>
      simp only [List.flatMap_cons, h a (List.mem_cons_self a rest)]
      rw [ih (fun b hb => h b (List.mem_cons_of_mem a hb))]

lemma darkPositions_congr (s1 s2 : Surface) (hw : s1.width = s2.width)
    (hh : s1.height = s2.height)
    (hdark : ∀ x y, x < s1.width → y < s1.height →
      isDarkAt s1 x y = isDarkAt s2 x y) :
    darkPositions s1 = darkPositions s2 := by
  unfold darkPositions
  rw [← hw, ← hh]
  apply flatMap_congr_mem
  intro y hy
  rw [List.filter_congr]
  intro x hx
  exact hdark x y (List.mem_range.mp hx) (List.mem_range.mp hy)

/-- C6: the re-encoder output is exactly the header, one full-surface
background rectangle, and then one unit-size rectangle per pixel passing the
dark test (alpha above 128, all of R, G, B below 128), joined in row-major
scan order; and the function is deterministic: two surfaces with the same
dimensions and the same bytes on the scanned range produce byte-identical
output. -/
theorem canvasToAdvancedSVG_spec (s : Surface)
    (backgroundColor dotsColor : String) (dotType : DotType)
    (cornerRadius : ℕ) :
    (canvasToAdvancedSVG s backgroundColor dotsColor dotType cornerRadius =
      svgHeader s.width s.height ++
        svgBackgroundRect s.width s.height backgroundColor ++
        concatStrings ((darkPositions s).map (fun p =>
          dotMarkup dotType cornerRadius dotsColor p.1 p.2)) ++
        "</svg>") ∧
    ∀ s2 : Surface, s.width = s2.width → s.height = s2.height →
      (∀ i, i < 4 * (s.width * s.height) → s.data i = s2.data i) →
      canvasToAdvancedSVG s backgroundColor dotsColor dotType cornerRadius =
        canvasToAdvancedSVG s2 backgroundColor dotsColor dotType cornerRadius := by
  refine ⟨canvasToAdvancedSVG_normal s backgroundColor dotsColor dotType
    cornerRadius, ?_⟩
  intro s2 hw hh hdata
  rw [canvasToAdvancedSVG_normal, canvasToAdvancedSVG_normal,
    darkPositions_congr s s2 hw hh
      (fun x y hx hy => isDarkAt_congr s s2 hw hdata x y hx hy), hw, hh]

/-- A concrete 1x1 surface whose single pixel is dark. -/
def surfaceEx : Surface := ⟨1, 1, fun i => if i = 3 then 255 else 0⟩

/-- A second surface with the same bytes on the scanned range but a
differently written data function. -/
def surfaceEx2 : Surface := ⟨1, 1, fun i => if i < 3 then 0 else 255⟩

/-- Witness for C6: the determinism conjunct applied at two concrete
byte-identical surfaces. -/
theorem canvasToAdvancedSVG_spec_witness :
    canvasToAdvancedSVG surfaceEx "#ffffff" "#000000" DotType.square 0 =
      canvasToAdvancedSVG surfaceEx2 "#ffffff" "#000000" DotType.square 0 :=
  (canvasToAdvancedSVG_spec surfaceEx "#ffffff" "#000000" DotType.square 0).2
    surfaceEx2 rfl rfl (by decide)

lemma foldl_emit_list {α : Type} (p : ℕ → Bool) (f : ℕ → α) :
    ∀ (l : List ℕ) (acc : List α),
      l.foldl (fun a x => if p x then a ++ [f x] else a) acc =
        acc ++ (l.filter p).map f := by
  intro l
  induction l with
  | nil => intro acc; simp
  | cons x xs ih =>
      intro acc
      by_cases hp : p x
      · simp only [List.foldl_cons, hp, if_true, List.filter_cons, List.map_cons]
        rw [ih]
        simp
      · simp only [List.foldl_cons, hp, if_false, List.filter_cons,
          Bool.false_eq_true, ite_false]
        exact ih acc

lemma emittedPositions_eq_darkPositions (s : Surface) :
    emittedPositions s = darkPositions s := by
  unfold emittedPositions darkPositions
  have : ∀ (rows : List ℕ) (acc : List (ℕ × ℕ)),
      rows.foldl (fun a y => (List.range s.width).foldl
          (fun a2 x => if isDarkAt s x y then a2 ++ [(x, y)] else a2) a) acc =
        acc ++ rows.flatMap (fun y => ((List.range s.width).filter
          (fun x => isDarkAt s x y)).map (fun x => (x, y))) := by
    intro rows
    induction rows with
    | nil => intro acc; simp
    | cons y ys ih =>
        intro acc
        rw [List.foldl_cons, foldl_emit_list, ih, List.flatMap_cons,
          List.append_assoc]
  rw [this, List.nil_append]

lemma mem_rasterizePositions {p : ℕ × ℕ} {l : List (ℕ × ℕ)} :
    p ∈ rasterizePositions l ↔ p ∈ l := by
  induction l with
  | nil => simp [rasterizePositions]
  | cons q rest ih =>
      simp only [rasterizePositions, List.foldr_cons, Finset.mem_insert,
        List.mem_cons] at ih ⊢
      rw [ih]

/-- C5: the SVG round trip is exact.  Rasterizing the pixel set implied by
the emitted unit rectangles (each 1x1 rectangle covers exactly its pixel,
on top of the background rectangle) reproduces exactly the set of pixels of
the original surface classified as dark by the re-encoder test. -/
theorem svg_roundtrip_exact (s : Surface) :
    rasterizePositions (emittedPositions s) =
      Finset.filter (fun p => isDarkAt s p.1 p.2 = true)
        (Finset.range s.width ×ˢ Finset.range s.height) := by
  ext p
  obtain ⟨x, y⟩ := p
  rw [mem_rasterizePositions, emittedPositions_eq_darkPositions]
  simp only [darkPositions, List.mem_flatMap, List.mem_map, List.mem_filter,
    List.mem_range, Finset.mem_filter, Finset.mem_product, Finset.mem_range]
  constructor
  · rintro ⟨y2, hy2, x2, ⟨hx2, hdark⟩, heq⟩
    obtain ⟨rfl, rfl⟩ := Prod.mk.injEq x2 y2 x y ▸ heq
    exact ⟨⟨hx2, hy2⟩, hdark⟩
  · rintro ⟨⟨hx, hy⟩, hdark⟩
    exact ⟨y, hy, x, ⟨hx, hdark⟩, rfl⟩

/-- The render geometry computed by `generateQRCode` (popup, lines 92-98)
and, with `margin = 0` and `size = 256`, by `renderQRCode` in the pop-out
window: `cellSize = floor((size - margin*2) / moduleCount)`,
`qrSize = cellSize * moduleCount`, `offset = floor((size - qrSize) / 2)`.
Under the claim hypotheses `size ≥ 2 * margin` and `moduleCount ≥ 1` every
intermediate value is a nonnegative integer, so natural floor division
matches `Math.floor` exactly. -/
def generateQRCodeGeometry (size margin moduleCount : ℕ) : ℕ × ℕ × ℕ :=
  ((size - margin * 2) / moduleCount,
   (size - margin * 2) / moduleCount * moduleCount,
   (size - (size - margin * 2) / moduleCount * moduleCount) / 2)

/-- C7: the derived cell size satisfies `cellSize * moduleCount ≤ size`, and
the remainder `size - cellSize * moduleCount` is split as a symmetric
margin: the offset is the floor of half the remainder on the left and top,
and the rest, on the right and bottom, equals the offset or exceeds it by
one pixel. -/
theorem generateQRCode_geometry (size margin moduleCount : ℕ)
    (hN : 1 ≤ moduleCount) (hm : margin * 2 ≤ size) :
    (generateQRCodeGeometry size margin moduleCount).1 * moduleCount ≤ size ∧
    (generateQRCodeGeometry size margin moduleCount).2.2 =
      (size - (generateQRCodeGeometry size margin moduleCount).1 *
        moduleCount) / 2 ∧
    (generateQRCodeGeometry size margin moduleCount).2.2 ≤
      size - (generateQRCodeGeometry size margin moduleCount).1 * moduleCount -
        (generateQRCodeGeometry size margin moduleCount).2.2 ∧
    size - (generateQRCodeGeometry size margin moduleCount).1 * moduleCount -
        (generateQRCodeGeometry size margin moduleCount).2.2 ≤
      (generateQRCodeGeometry size margin moduleCount).2.2 + 1 := by
  have hfit : (size - margin * 2) / moduleCount * moduleCount ≤ size :=
    le_trans (Nat.div_mul_le_self _ _) (by omega)
  unfold generateQRCodeGeometry
  dsimp only
  exact ⟨hfit, rfl, by omega, by omega⟩

/-- Witness for C7 at the default popup configuration: size 280, margin 4
and the 29-module grid of a version-3 QR code. -/
theorem generateQRCode_geometry_witness :
    (generateQRCodeGeometry 280 4 29).1 * 29 ≤ 280 ∧
    (generateQRCodeGeometry 280 4 29).2.2 =
      (280 - (generateQRCodeGeometry 280 4 29).1 * 29) / 2 ∧
    (generateQRCodeGeometry 280 4 29).2.2 ≤
      280 - (generateQRCodeGeometry 280 4 29).1 * 29 -
        (generateQRCodeGeometry 280 4 29).2.2 ∧
    280 - (generateQRCodeGeometry 280 4 29).1 * 29 -
        (generateQRCodeGeometry 280 4 29).2.2 ≤
      (generateQRCodeGeometry 280 4 29).2.2 + 1 :=
  generateQRCode_geometry 280 4 29 (by norm_num) (by norm_num)

/-- Error-correction levels of the settings record. -/
inductive ECLevel where
  | L
  | M
  | Q
  | H
deriving DecidableEq, Repr

/-- The `QRSettings` record of `src/utils/storageManager.ts`, with the
optional fields resolved the way the views use them. -/
structure QRSettings where
  size : ℕ
  dotsColor : String
  backgroundColor : String
  errorCorrectionLevel : ECLevel
  margin : ℕ
  centerIcon : Option String
  cornerRadius : ℕ
  dotType : DotType
  glowEffect : Bool
  iconBackgroundType : String
  iconBackgroundColor : String
  iconBorderRadius : ℕ
deriving DecidableEq, Repr

/-- The `DEFAULT_SETTINGS` constant of `src/utils/storageManager.ts`. -/
def defaultSettings : QRSettings :=
  ⟨280, "#000000", "#ffffff", ECLevel.H, 4, none, 0, DotType.square, false,
    "colored", "#ffffff", 8⟩

/-- A file as the upload handler sees it: MIME type string and size in
bytes. -/
structure IconFile where
  mime : String
  size : ℕ
  name : String
deriving DecidableEq, Repr

/-- The view state touched by `handleIconUpload` (popup `App.tsx` and
`Sidebar.tsx`, identical code): the in-memory settings, the error banner,
and the log of settings records written to storage by `saveQRSettings`. -/
structure UIState where
  qrOptions : QRSettings
  qrError : Option String
  storageWrites : List QRSettings
deriving DecidableEq, Repr

/-- Shallow embedding of `handleIconUpload`: no file selected is a no-op; a
non-image MIME type or a size above 500000 bytes sets the error banner and
returns before any conversion or storage write; otherwise the file is
converted (an external asynchronous collaborator, passed as `encode`),
`updateSetting` stores the updated record, and the error is cleared. -/
def handleIconUpload (encode : IconFile → String) (st : UIState)
    (file : Option IconFile) : UIState :=
  match file with
  | none => st
  | some f =>
      if ¬ (f.mime.startsWith "image/") then
        { st with qrError := some "Please upload an image file" }
      else if 500000 < f.size then
        { st with qrError := some "Icon file must be smaller than 500KB" }
      else
        let updated := { st.qrOptions with centerIcon := some (encode f) }
        { qrOptions := updated
          qrError := none
          storageWrites := st.storageWrites ++ [updated] }

/-- C8: any upload with a non-image MIME type or with more than 500000 bytes
is rejected before any storage write: the storage log and the whole settings
record, in particular `centerIcon`, are unchanged and a user-visible error
is set; a 600 KB image file specifically gets the size-limit error. -/
theorem handleIconUpload_rejects (encode : IconFile → String) (st : UIState)
    (f : IconFile)
    (hrej : ¬ (f.mime.startsWith "image/") = true ∨ 500000 < f.size) :
    (handleIconUpload encode st (some f)).storageWrites = st.storageWrites ∧
    (handleIconUpload encode st (some f)).qrOptions = st.qrOptions ∧
    (handleIconUpload encode st (some f)).qrOptions.centerIcon =
      st.qrOptions.centerIcon ∧
    (∃ msg, (handleIconUpload encode st (some f)).qrError = some msg) ∧
    (f.mime.startsWith "image/" = true → f.size = 600000 →
      (handleIconUpload encode st (some f)).qrError =
        some "Icon file must be smaller than 500KB") := by
  unfold handleIconUpload
  by_cases himg : f.mime.startsWith "image/"
  · have hsize : 500000 < f.size := by
      rcases hrej with h | h
      · exact absurd himg (by simpa using h)
      · exact h
    simp [himg, hsize]
  · simp [himg]

/-- Witness for C8: a 600000-byte PNG upload against the default settings
state. -/
theorem handleIconUpload_rejects_witness :
    (handleIconUpload (fun _ => "") ⟨defaultSettings, none, []⟩
        (some ⟨"image/png", 600000, "icon.png"⟩)).storageWrites = [] ∧
    (handleIconUpload (fun _ => "") ⟨defaultSettings, none, []⟩
        (some ⟨"image/png", 600000, "icon.png"⟩)).qrOptions =
      defaultSettings ∧
    (handleIconUpload (fun _ => "") ⟨defaultSettings, none, []⟩
        (some ⟨"image/png", 600000, "icon.png"⟩)).qrOptions.centerIcon =
      defaultSettings.centerIcon ∧
    (∃ msg, (handleIconUpload (fun _ => "") ⟨defaultSettings, none, []⟩
        (some ⟨"image/png", 600000, "icon.png"⟩)).qrError = some msg) ∧
    (("image/png".startsWith "image/") = true → 600000 = 600000 →
      (handleIconUpload (fun _ => "") ⟨defaultSettings, none, []⟩
        (some ⟨"image/png", 600000, "icon.png"⟩)).qrError =
        some "Icon file must be smaller than 500KB") :=
  handleIconUpload_rejects (fun _ => "") ⟨defaultSettings, none, []⟩
    ⟨"image/png", 600000, "icon.png"⟩ (Or.inr (by norm_num))

/-- The JSON values `JSON.parse` can return. -/
inductive JsonValue where
  | null
  | bool (b : Bool)
  | num (q : ℚ)
  | str (s : String)
  | arr (elems : List JsonValue)
  | obj (fields : List (String × JsonValue))

/-- The payload record of the pop-out window.  The TypeScript declaration
annotates the first field with the five-value union `PayloadType`, but at
runtime it holds whatever string the cast `as PayloadType` lets through, so
the embedding gives it type `String`. -/
structure PayloadData where
  type : String
  content : String
  url : String
deriving DecidableEq, Repr

/-- The initial `currentData` of the pop-out window client
(`src/unnamed/part_004`, line 58). -/
def defaultPayload : PayloadData := ⟨"link", "", ""⟩

/-- The own keys of the `TYPE_CLASS_MAP` object literal. -/
def typeClassMapKeys : List String := ["link", "text", "image", "video", "audio"]

/-- The own property names of `Object.prototype` in JavaScript.  The
membership test `rawType in TYPE_CLASS_MAP` of the source uses the `in`
operator, which consults the whole prototype chain of the object literal,
so every name in this list also passes the test. -/
def objectPrototypeProps : List String :=
  ["constructor", "hasOwnProperty", "isPrototypeOf", "propertyIsEnumerable",
   "toLocaleString", "toString", "valueOf", "__proto__",
   "__defineGetter__", "__defineSetter__", "__lookupGetter__",
   "__lookupSetter__"]

/-- The JavaScript expression `key in TYPE_CLASS_MAP`: true for an own key
of the literal or for any property inherited from `Object.prototype`. -/
def jsInTypeClassMap (key : String) : Bool :=
  typeClassMapKeys.contains key || objectPrototypeProps.contains key

/-- ASCII lowering of one character, as `String.prototype.toLowerCase`
behaves on ASCII input. -/
def jsToLowerChar (c : Char) : Char :=
  if 65 ≤ c.toNat ∧ c.toNat ≤ 90 then Char.ofNat (c.toNat + 32) else c

/-- `String.prototype.toLowerCase` restricted to ASCII strings. -/
def jsToLower (s : String) : String := String.mk (s.data.map jsToLowerChar)

/-- Property access `parsed.key` on a `JSON.parse` result: own-key lookup
on an object (later duplicate keys win, as in `JSON.parse`), undefined on
every other value. -/
def getField : JsonValue → String → Option JsonValue
  | JsonValue.obj fields, key =>
      (fields.reverse.find? (fun kv => kv.1 == key)).map (fun kv => kv.2)
  | _, _ => none

/-- The source condition `parsed && typeof parsed === "object"`: `typeof`
is `"object"` for objects, arrays and `null`, and `null` is falsy. -/
def isTruthyObject : JsonValue → Bool
  | JsonValue.obj _ => true
  | JsonValue.arr _ => true
  | _ => false

/-- Shallow embedding of `parseIncomingData` (`src/unnamed/part_004`, lines
60-97; `parseQueryParams` of `QRWindow.tsx` is the same logic).  The
argument models the `data` query parameter after decoding: `none` when the
parameter is absent, `Except.error` when `JSON.parse` threw (the `catch`
falls through), `Except.ok` with the parsed value otherwise.  `currentData`
is the payload in place before the call, returned on every non-object
path. -/
def parseIncomingData (payload : Option (Except Unit JsonValue))
    (currentData : PayloadData) : PayloadData :=
  match payload with
  | none => currentData
  | some (Except.error _) => currentData
  | some (Except.ok parsed) =>
      if isTruthyObject parsed then
        let rawType :=
          match getField parsed "type" with
          | some (JsonValue.str s) => jsToLower s
          | _ => "link"
        { type := if jsInTypeClassMap rawType then rawType else "link"
          content :=
            match getField parsed "content" with
            | some (JsonValue.str s) => s
            | _ => ""
          url :=
            match getField parsed "url" with
            | some (JsonValue.str s) => s
            | _ => "" }
      else currentData

/-- C10 fails on the code: the payload whose `type` field is the string
`constructor` passes the `in` test through the prototype chain of
`TYPE_CLASS_MAP`, so the parsed payload carries the type `constructor`,
which is none of the five declared values, contradicting both the claimed
invariant and the declared TypeScript type of the field. -/
theorem parseIncomingData_type_escapes :
    (parseIncomingData (some (Except.ok (JsonValue.obj
        [("type", JsonValue.str "constructor"),
         ("content", JsonValue.str "hello")]))) defaultPayload).type =
      "constructor" ∧
    "constructor" ∉ typeClassMapKeys := by
  constructor
  · rfl
  · decide

end QRify
